import Mathlib

/-!
Verification of the content-advisory pipeline of `addon.py`.

Strings are embedded as lists of characters (`Str`), mirroring Python string
operations (substring containment, `lower`, `strip`, `split`, `zfill`,
`title`, `capitalize`) character by character. Each definition below is a
direct translation of the corresponding function in `addon.py`.
-/

/-- Python strings, embedded as lists of characters. -/
abbrev Str := List Char

/-- Coerce a Lean string literal to the character-list representation. -/
def s2c (s : String) : Str := s.data

/-- Python `s.lower()` (ASCII case folding, as used by the scraped text). -/
def toLowerStr (s : Str) : Str := s.map Char.toLower

/-- Boolean test: `n` occurs at the start of `h` (exact characters). -/
def pfx : Str → Str → Bool
  | [], _ => true
  | _ :: _, [] => false
  | a :: as, b :: bs => a == b && pfx as bs

/-- Python's `n in h` substring test. -/
def hasSub (n : Str) : Str → Bool
  | [] => n.isEmpty
  | c :: rest => pfx n (c :: rest) || hasSub n rest

/-- Case-insensitive version of `pfx`: the needle is given lower-case and each
scanned character of the haystack is lower-cased before comparison (models
`re.IGNORECASE` matching of a literal pattern). -/
def pfxCI : Str → Str → Bool
  | [], _ => true
  | _ :: _, [] => false
  | a :: as, b :: bs => a == b.toLower && pfxCI as bs

/-- Scan for the first case-insensitive occurrence of `n`; on a hit return the
original-case text that follows the matched literal (what `re.search` leaves
for the capture group that follows the literal header in the pattern). -/
def findAfterCI (n : Str) : Str → Option Str
  | [] => if n.isEmpty then some [] else none
  | c :: rest =>
    if pfxCI n (c :: rest) then some ((c :: rest).drop n.length)
    else findAfterCI n rest

/-- The text matched by the non-greedy group `(.*?)(?=\[|$)` of
`get_rating_reasons` (with `re.DOTALL`): everything up to the first opening
bracket, or — when no bracket follows — up to the end of the text, where the
Python `$` anchor also matches just before one trailing newline. -/
def regexCapture : Str → Str
  | [] => []
  | ['\n'] => []
  | c :: rest => if c == '[' then [] else c :: regexCapture rest

/-- Python `str.isspace` characters stripped by `str.strip()`. -/
def isSpaceCh (c : Char) : Bool :=
  c == ' ' || c == '\t' || c == '\n' || c == '\r' || c == '\x0b' || c == '\x0c'

/-- Python `s.strip()`. -/
def strip (s : Str) : Str :=
  ((s.dropWhile isSpaceCh).reverse.dropWhile isSpaceCh).reverse

/-- Python `s.split(sep)` for a single-character separator: always returns at
least one (possibly empty) piece. -/
def splitOnCh (sep : Char) : Str → List Str
  | [] => [[]]
  | c :: rest =>
    let r := splitOnCh sep rest
    if c == sep then [] :: r
    else
      match r with
      | h :: t => (c :: h) :: t
      | [] => [[c]]

/-- Python `s.capitalize()`: first character upper-cased, the rest lower-cased. -/
def capitalizeStr : Str → Str
  | [] => []
  | c :: rest => c.toUpper :: rest.map Char.toLower

/-- Helper for `titleCase`: the flag records whether the previous character was
a letter (Python `str.title()` upper-cases a letter that does not follow a
cased character and lower-cases the others). -/
def titleCaseAux : Bool → Str → Str
  | _, [] => []
  | prevAlpha, c :: rest =>
    (if c.isAlpha then (if prevAlpha then c.toLower else c.toUpper) else c)
      :: titleCaseAux c.isAlpha rest

/-- Python `s.title()`. -/
def titleCase (s : Str) : Str := titleCaseAux false s

/-- Python `s.replace(c, d)` for single characters (used for underscore to space). -/
def replaceCh (c d : Char) (s : Str) : Str :=
  s.map (fun x => if x == c then d else x)

/-- Python `s.zfill(w)`: pad on the left with zeros up to width `w`, keeping a
leading sign character in front of the padding. -/
def zfill (w : Nat) (s : Str) : Str :=
  if w ≤ s.length then s
  else
    match s with
    | c :: rest =>
      if c == '+' || c == '-' then
        c :: (List.replicate (w - s.length) '0' ++ rest)
      else List.replicate (w - s.length) '0' ++ s
    | [] => List.replicate w '0'

/-- Python list indexing `l[i]` with negative-index wrap-around; `none` models
an `IndexError`. -/
def pyIndex (l : List Str) (i : Int) : Option Str :=
  if 0 ≤ i then l.get? i.toNat
  else if 0 ≤ i + l.length then l.get? (i + l.length).toNat
  else none

/-- Python `", ".join(reasons)`. -/
def joinComma : List Str → Str
  | [] => []
  | [x] => x
  | x :: xs => x ++ s2c (", ") ++ joinComma xs

/-! ## The severity classifier (`determine_severity`) -/

/-- The `SEVERITY_KEYWORDS` table of `addon.py`. -/
def SEVERITY_KEYWORDS : List (Str × List Str) :=
  [ (s2c ("none"),
      [s2c ("no"), s2c ("none"), s2c ("clean"), s2c ("family-friendly"), s2c ("children")]),
    (s2c ("minimal"),
      [s2c ("very mild"), s2c ("brief"), s2c ("cartoon"), s2c ("background"), s2c ("distant")]),
    (s2c ("mild"),
      [s2c ("mild"), s2c ("some"), s2c ("minor"), s2c ("light"), s2c ("suggested")]),
    (s2c ("moderate"),
      [s2c ("moderate"), s2c ("several"), s2c ("blood"), s2c ("fighting"), s2c ("partial")]),
    (s2c ("strong"),
      [s2c ("graphic"), s2c ("extreme"), s2c ("intense"), s2c ("explicit"), s2c ("severe")]) ]

/-- Keyword list of one severity tier. -/
def kwFor (tier : Str) : List Str :=
  (List.lookup tier SEVERITY_KEYWORDS).getD []

/-- Function `determine_severity` of `addon.py`: scan the tiers from strongest to
mildest and return the first tier one of whose keywords occurs in the
lower-cased text; then try the `none` tier; default to `minimal`. -/
def determine_severity (content : Str) : Str :=
  let contentLower := toLowerStr content
  match [s2c ("strong"), s2c ("moderate"), s2c ("mild"), s2c ("minimal")].find?
      (fun sev => (kwFor sev).any (fun kw => hasSub kw contentLower)) with
  | some sev => sev
  | none =>
    if (kwFor (s2c ("none"))).any (fun kw => hasSub kw contentLower) then s2c ("none")
    else s2c ("minimal")

/-! ## The rating aggregator (`calculate_age_rating`) -/

/-- A value of the `CONTENT_WEIGHTS` dictionary: either a per-severity weight
table or a bare number (the `spoilers: 0` entry). -/
inductive WeightVal where
  | tbl (t : List (Str × Nat)) : WeightVal
  | flat (n : Nat) : WeightVal

/-- The per-category severity weight table (identical for every category). -/
def severityWeights : List (Str × Nat) :=
  [ (s2c ("none"), 0), (s2c ("minimal"), 1), (s2c ("mild"), 2),
    (s2c ("moderate"), 3), (s2c ("strong"), 4) ]

/-- The `CONTENT_WEIGHTS` dictionary of `addon.py`. -/
def CONTENT_WEIGHTS : List (Str × WeightVal) :=
  [ (s2c ("nudity"), WeightVal.tbl severityWeights),
    (s2c ("violence"), WeightVal.tbl severityWeights),
    (s2c ("profanity"), WeightVal.tbl severityWeights),
    (s2c ("frightening"), WeightVal.tbl severityWeights),
    (s2c ("alcohol"), WeightVal.tbl severityWeights),
    (s2c ("spoilers"), WeightVal.flat 0) ]

/-- One iteration of the category loop of `calculate_age_rating`: skip empty
content, unknown categories and `spoilers`; otherwise split the text on `*`,
strip the items, drop the empty ones, classify each item and add its weight. -/
def scoreStep (score : Nat) (kv : Str × Str) : Nat :=
  if kv.2.isEmpty then score
  else
    match List.lookup kv.1 CONTENT_WEIGHTS with
    | none => score
    | some w =>
      if kv.1 = s2c ("spoilers") then score
      else
        (((splitOnCh '*' kv.2).map strip).filter (fun i => !i.isEmpty)).foldl
          (fun s item =>
            match w with
            | WeightVal.tbl t => s + (List.lookup (determine_severity item) t).getD 0
            | WeightVal.flat _ => s) score

/-- The total score accumulated by `calculate_age_rating`. -/
def calcScore (sections : List (Str × Str)) : Nat :=
  sections.foldl scoreStep 0

/-- The threshold table at the end of `calculate_age_rating`. -/
def scoreToAge (score : Nat) : Nat :=
  if score ≥ 15 then 18
  else if score ≥ 10 then 16
  else if score ≥ 7 then 13
  else if score ≥ 4 then 10
  else if score ≥ 2 then 8
  else 6

/-- Function `calculate_age_rating` of `addon.py`. -/
def calculate_age_rating (sections : List (Str × Str)) : Nat :=
  scoreToAge (calcScore sections)

/-! ## Parser output (`parse_content_rating`) and the scrape pipeline -/

/-- The five normalized severity labels `parse_content_rating` can assign to a
category (its `elif` chain maps the scraped phrase to exactly these). -/
def normalizedSeverities : List Str :=
  [s2c ("none"), s2c ("minimal"), s2c ("mild"), s2c ("moderate"), s2c ("strong")]

/-- The dictionary returned by `parse_content_rating` on a successful parse:
the `mpa_rating` entry followed by the five category entries, whose keys are
the page labels transformed by
`category.lower().replace(" & ", "").replace(",", "").replace(" ", "_")`. -/
def parsedSections (mpa s1 s2 s3 s4 s5 : Str) : List (Str × Str) :=
  [ (s2c ("mpa_rating"), mpa),
    (s2c ("sexnudity"), s1),
    (s2c ("violencegore"), s2),
    (s2c ("profanity"), s3),
    (s2c ("alcohol_drugssmoking"), s4),
    (s2c ("frighteningintense_scenes"), s5) ]

/-- The description block composed in `scrape_movie`: one bracketed header per
section, `Rated <label>` for the MPA entry and the capitalized severity for
the category entries. -/
def buildDescription (sections : List (Str × Str)) : Str :=
  sections.foldl
    (fun acc kv =>
      if kv.1 = s2c ("mpa_rating") then
        acc ++ s2c ("[MPA Rating]\nRated ") ++ kv.2 ++ s2c ("\n")
      else
        acc ++ s2c ("[") ++ titleCase (replaceCh '_' ' ' kv.1) ++ s2c ("]\n")
          ++ capitalizeStr kv.2 ++ s2c ("\n"))
    []

/-- The page data `scrape_movie` works from once the document has been
fetched and parsed: the sections dictionary and the extracted title. -/
structure ParsedPage where
  sections : List (Str × Str)
  title : Str

/-- Function `scrape_movie` of `addon.py`. A failed fetch (`get_soup` returning
`None`) skips the whole `if soup:` body, so the function falls off the end of
its `try` block and implicitly returns Python `None` — modelled as `none`.
An empty sections dictionary yields the fixed placeholder triple. -/
def scrape_movie (fetched : Option ParsedPage) : Option (Str × Str × Nat) :=
  match fetched with
  | none => none
  | some page =>
    if page.sections.isEmpty then
      some (s2c ("No parental guide available."), s2c ("Unknown Title"), 0)
    else
      some (buildDescription page.sections, page.title,
        calculate_age_rating page.sections)

/-- Result of running a Python function that may raise: either the returned
value or an escaped (uncaught) exception. -/
inductive PyOutcome (α : Type) where
  | ok (val : α) : PyOutcome α
  | raised : PyOutcome α
deriving DecidableEq

/-- Function `get_age_rating_for_content` of `addon.py` (the body the memoize
decorator wraps): it calls `len(data)` on the value returned by
`scrape_movie`, and `len(None)` raises a `TypeError` that nothing catches. -/
def get_age_rating_for_content (fetched : Option ParsedPage) : PyOutcome (Option Nat) :=
  match scrape_movie fetched with
  | none => PyOutcome.raised
  | some data => PyOutcome.ok (some data.2.2)

/-! ## Episode resolution (`getEpId`) -/

/-- Expression `ep_link.split('/')[2]` — `none` models the `IndexError` swallowed by the
surrounding `except` (which returns `None`). -/
def extractEpId (link : Str) : Option Str :=
  (splitOnCh '/' link).get? 2

/-- The index-handling core of `getEpId` of `addon.py`, given the episode
links collected from the season page: `if int(episode) - 1 < len(links)`
followed by Python list indexing (negative indices wrap around; an
out-of-range access raises `IndexError`, caught by the blanket `except`,
which returns `None`). -/
def getEpId (links : List Str) (episode : Int) : Option Str :=
  if episode - 1 < (links.length : Int) then
    match pyIndex links (episode - 1) with
    | some link => extractEpId link
    | none => none
  else none

/-! ## `format_season_episode` -/

/-- Function `format_season_episode` of `addon.py`: split on `_`, take the last two
pieces (season and episode), discard a hyphen suffix of the episode piece and
zero-pad both to two characters; any `IndexError` (fewer than two pieces)
lands in the `except`, which returns `S00E00`. -/
def format_season_episode (id : Str) : Str :=
  let parts := splitOnCh '_' id
  match pyIndex parts (-2), pyIndex parts (-1) with
  | some seasonRaw, some epRaw =>
    s2c ("S") ++ zfill 2 seasonRaw ++ s2c ("E")
      ++ zfill 2 (((splitOnCh '-' epRaw).headD []))
  | _, _ => s2c ("S00E00")

/-! ## The advisory cache -/

/-- One record of the advisory cache. -/
structure CacheEntry where
  key : Str
  value : Option Nat
  expiresAt : Nat

/-- Modelled from the spec: the TTL memoization applied to
`get_age_rating_for_content` by the `flask_caching` decorator
`@cache.memoize(timeout=3600)` (the decorator itself is library code outside
`src/`). Per §4.7: a non-expired entry for the id is returned as stored
without recomputation; otherwise the pipeline result on the current upstream
document — `unknown` included — is stored with expiry `now + TTL` and
returned. -/
def cacheLookup (compute : List (Str × Str) → Option Nat) (ttl : Nat)
    (entries : List CacheEntry) (id : Str) (now : Nat)
    (doc : List (Str × Str)) : Option Nat × List CacheEntry :=
  match entries.find? (fun e => e.key == id) with
  | some e =>
    if now < e.expiresAt then (e.value, entries)
    else
      let v := compute doc
      (v, CacheEntry.mk id v (now + ttl)
            :: entries.filter (fun e2 => !(e2.key == id)))
  | none =>
    let v := compute doc
    (v, CacheEntry.mk id v (now + ttl)
          :: entries.filter (fun e2 => !(e2.key == id)))

/-! ## The reason formatter (`get_rating_reasons`) -/

/-- One iteration of the category loop of `get_rating_reasons`: search the
description case-insensitively for the bracketed category header, capture the
text up to the next bracket (or the end), and emit
`"<Category.title()> (<severity>)"` when the capture strips to something
non-empty and classifies to a tier other than `none`. -/
def reasonFor (cat : Str) (content : Str) : Option Str :=
  match findAfterCI (s2c ("[") ++ cat ++ s2c ("]")) content with
  | none => none
  | some tail =>
    let captured := regexCapture tail
    if (strip captured).isEmpty then none
    else
      let severity := determine_severity captured
      if severity = s2c ("none") then none
      else some (titleCase cat ++ s2c (" (") ++ severity ++ s2c (")"))

/-- Function `get_rating_reasons` of `addon.py`: loop over the `CONTENT_WEIGHTS` keys,
skip `spoilers`, collect the per-category reasons, and fall back to the fixed
sentence when none were produced. -/
def get_rating_reasons (content : Str) : Str :=
  let reasons := (CONTENT_WEIGHTS.map Prod.fst).filterMap
    (fun cat => if cat = s2c ("spoilers") then none else reasonFor cat content)
  if reasons.isEmpty then s2c ("Suitable for all ages") else joinComma reasons

example : determine_severity (s2c ("strong")) = s2c ("minimal") := by decide
example : determine_severity (s2c ("moderate")) = s2c ("moderate"):= by decide
example : determine_severity (s2c ("none")) = s2c ("none") := by decide
example : calculate_age_rating
    [ (s2c ("nudity"), s2c ("strong")), (s2c ("violence"), s2c ("strong")),
      (s2c ("profanity"), s2c ("strong")), (s2c ("frightening"), s2c ("strong")),
      (s2c ("alcohol"), s2c ("strong")) ] = 10 := by decide

/-! ## Theorems -/

/-- Severity mapped by the claim text of C5: the threshold table evaluated
highest-first, written from the spec's words for comparison with the
source-derived `scoreToAge`. -/
def scoreToAgeSpec (score : Nat) : Nat :=
  if 15 ≤ score then 18
  else if 10 ≤ score then 16
  else if 7 ≤ score then 13
  else if 4 ≤ score then 10
  else if 2 ≤ score then 8
  else 6

/-- C5: the score-to-age mapping of `calculate_age_rating` is exactly the
spec's threshold table evaluated highest-first, and it takes the listed
values at the boundary scores. -/
theorem claim5_threshold_table :
    (∀ score : Nat, scoreToAge score = scoreToAgeSpec score)
  ∧ (∀ sections : List (Str × Str),
      calculate_age_rating sections = scoreToAgeSpec (calcScore sections))
  ∧ scoreToAge 15 = 18 ∧ scoreToAge 14 = 16 ∧ scoreToAge 10 = 16
  ∧ scoreToAge 9 = 13 ∧ scoreToAge 7 = 13 ∧ scoreToAge 6 = 10
  ∧ scoreToAge 4 = 10 ∧ scoreToAge 3 = 8 ∧ scoreToAge 2 = 8
  ∧ scoreToAge 1 = 6 ∧ scoreToAge 0 = 6 := by
  refine ⟨fun score => rfl, fun sections => rfl, ?_, ?_, ?_, ?_, ?_, ?_, ?_, ?_, ?_, ?_, ?_⟩
  all_goals decide

/-- C2: evaluating the rating lookup at a failed document fetch. `scrape_movie`
implicitly returns `None` there, so `len(data)` in
`get_age_rating_for_content` raises an uncaught `TypeError` instead of
producing a rating or the `unknown` sentinel. -/
theorem claim2_fetch_failure_raises :
    get_age_rating_for_content none = PyOutcome.raised := rfl

/-- C3 counterexample: the classifier does not map the tier label `strong` to
itself — none of the strong-tier keywords occurs in the word `strong`, so the
default tier `minimal` is returned. -/
theorem claim3_counterexample :
    determine_severity (s2c ("strong")) = s2c ("minimal")
    ∧ s2c ("minimal") ≠ s2c ("strong") := by decide

/-- C3 amended: the classifier agrees with the tier label for `none`,
`minimal`, `mild` and `moderate` (both in the parser's lower-case form and in
the description's capitalized rendering), but classifies the `strong` label —
in either rendering — as `minimal`. -/
theorem claim3_amended_label_fixpoints :
    determine_severity (s2c ("none")) = s2c ("none")
  ∧ determine_severity (capitalizeStr (s2c ("none"))) = s2c ("none")
  ∧ determine_severity (s2c ("minimal")) = s2c ("minimal")
  ∧ determine_severity (capitalizeStr (s2c ("minimal"))) = s2c ("minimal")
  ∧ determine_severity (s2c ("mild")) = s2c ("mild")
  ∧ determine_severity (capitalizeStr (s2c ("mild"))) = s2c ("mild")
  ∧ determine_severity (s2c ("moderate")) = s2c ("moderate")
  ∧ determine_severity (capitalizeStr (s2c ("moderate"))) = s2c ("moderate")
  ∧ determine_severity (s2c ("strong")) = s2c ("minimal")
  ∧ determine_severity (capitalizeStr (s2c ("strong"))) = s2c ("minimal") := by
  decide

/-- The categories mapping of claim C4: all five scored categories at the
severity text `strong`. -/
def allStrongSections : List (Str × Str) :=
  [ (s2c ("nudity"), s2c ("strong")), (s2c ("violence"), s2c ("strong")),
    (s2c ("profanity"), s2c ("strong")), (s2c ("frightening"), s2c ("strong")),
    (s2c ("alcohol"), s2c ("strong")) ]

/-- C4 counterexample: on the all-`strong` mapping the aggregator returns age
rating 10, not the claimed 18. -/
theorem claim4_counterexample :
    calculate_age_rating allStrongSections = 10 ∧ (10 : Nat) ≠ 18 := by decide

/-- C4 amended: with all five scored categories at the text `strong`, the
classifier puts each item in the `minimal` tier (weight 1), so the total
score is 5 and the age rating is 10. -/
theorem claim4_amended_all_strong :
    calcScore allStrongSections = 5
    ∧ calculate_age_rating allStrongSections = 10 := by decide

/-- C9: any text containing a strong-tier keyword (in its lower-cased form)
classifies as `strong`, whatever else it contains. -/
theorem claim9_strong_tier_wins (text kw : Str)
    (hkw : kw ∈ kwFor (s2c ("strong")))
    (hocc : hasSub kw (toLowerStr text) = true) :
    determine_severity text = s2c ("strong") := by
  unfold determine_severity
  have hany : ((kwFor (s2c ("strong"))).any
      (fun k => hasSub k (toLowerStr text))) = true :=
    List.any_eq_true.mpr ⟨kw, hkw, hocc⟩
  simp [List.find?, hany]

/-- C9 witness: a text containing the strong keyword `intense` together with
a mild keyword (`some`) and a moderate keyword (`fighting`) still classifies
as `strong`. -/
theorem claim9_witness :
    determine_severity (s2c ("some intense fighting")) = s2c ("strong") :=
  claim9_strong_tier_wins (s2c ("some intense fighting")) (s2c ("intense"))
    (by decide) (by decide)

/-- Episode links of a season page exposing exactly five episodes, as in the
claim's scenario. -/
def demoEpisodeLinks : List Str :=
  [ s2c ("/title/tt01/"), s2c ("/title/tt02/"), s2c ("/title/tt03/"),
    s2c ("/title/tt04/"), s2c ("/title/tt05/") ]

/-- C6 counterexample: with five episode links, `episode = 0` does not fail —
`int(episode) - 1 < len(links)` holds and Python's negative indexing hands
back the last link's id. -/
theorem claim6_counterexample :
    getEpId demoEpisodeLinks 0 = some (s2c ("tt05"))
    ∧ getEpId demoEpisodeLinks 0 ≠ none := by decide

/-- C6 amended: for `1 ≤ episode ≤ n` the resolver returns the id extracted
from the `episode`-th link and for `episode > n` it fails; but for
`1 - n ≤ episode ≤ 0` Python's negative indexing returns the
`(n + episode)`-th link's id, and only for `episode < 1 - n` does the
resulting `IndexError` make the resolver fail. -/
theorem claim6_amended_range (links : List Str) (episode : Int) :
    (1 ≤ episode → episode ≤ (links.length : Int) →
      getEpId links episode = (links.get? (episode - 1).toNat).bind extractEpId)
  ∧ ((links.length : Int) < episode → getEpId links episode = none)
  ∧ (1 - (links.length : Int) ≤ episode → episode ≤ 0 →
      getEpId links episode
        = (links.get? (episode - 1 + links.length).toNat).bind extractEpId)
  ∧ (episode < 1 - (links.length : Int) → getEpId links episode = none) := by
  unfold getEpId pyIndex
  refine ⟨?_, ?_, ?_, ?_⟩
  · intro h1 h2
    rw [if_pos (by omega), if_pos (by omega)]
    cases hg : links.get? (episode - 1).toNat <;> simp [hg]
  · intro h
    rw [if_neg (by omega)]
  · intro h1 h2
    rw [if_pos (by omega), if_neg (by omega), if_pos (by omega)]
    cases hg : links.get? (episode - 1 + (links.length : Int)).toNat <;> simp [hg]
  · intro h
    rw [if_pos (by omega), if_neg (by omega), if_neg (by omega)]

/-- C6 witness: on the five-link page, episode 3 resolves to the third link's
extracted id. -/
theorem claim6_amended_witness :
    getEpId demoEpisodeLinks 3 = some (s2c ("tt03")) :=
  ((claim6_amended_range demoEpisodeLinks 3).1 (by decide) (by decide)).trans
    (by decide)

/-- C10: whenever the identifier splits into at least two underscore-separated
pieces, `format_season_episode` builds `S<season>E<episode>` from the last
two pieces, zero-padded to width two, with any hyphen suffix of the episode
piece discarded; otherwise it returns exactly `S00E00`. -/
theorem claim10_season_episode (id : Str) :
    (2 ≤ (splitOnCh '_' id).length →
      format_season_episode id
        = s2c ("S")
          ++ zfill 2 (((splitOnCh '_' id).get? ((splitOnCh '_' id).length - 2)).getD [])
          ++ s2c ("E")
          ++ zfill 2 ((splitOnCh '-'
                (((splitOnCh '_' id).get? ((splitOnCh '_' id).length - 1)).getD [])).headD []))
  ∧ ((splitOnCh '_' id).length < 2 →
      format_season_episode id = s2c ("S00E00")) := by
  simp only [format_season_episode, pyIndex]
  constructor
  · intro h
    have hs : (-2 + ((splitOnCh '_' id).length : Int)).toNat
        = (splitOnCh '_' id).length - 2 := by omega
    have he : (-1 + ((splitOnCh '_' id).length : Int)).toNat
        = (splitOnCh '_' id).length - 1 := by omega
    rw [if_neg (by omega), if_pos (by omega), if_neg (by omega), if_pos (by omega),
      hs, he]
    have h2 : (splitOnCh '_' id).length - 2 < (splitOnCh '_' id).length := by omega
    have h1 : (splitOnCh '_' id).length - 1 < (splitOnCh '_' id).length := by omega
    rw [List.get?_eq_get h2, List.get?_eq_get h1]
    rfl
  · intro h
    rw [if_neg (by omega), if_neg (by omega)]

/-- C10 witness: a composite id with a hyphen-suffixed episode piece. -/
theorem claim10_witness :
    format_season_episode (s2c ("tt123_3_12-tt99")) = s2c ("S03E12") :=
  ((claim10_season_episode (s2c ("tt123_3_12-tt99"))).1 (by decide)).trans (by decide)

/-- Categories whose key is absent from `CONTENT_WEIGHTS` contribute nothing
to the score, whatever their text. -/
theorem scoreStep_unscored (k v : Str)
    (hk : List.lookup k CONTENT_WEIGHTS = none) (score : Nat) :
    scoreStep score (k, v) = score := by
  unfold scoreStep
  by_cases hv : v.isEmpty <;> simp [hv, hk]

/-- C1: on every successfully parsed document, the score reduces to the
profanity entry alone — the parser's other keys are absent from
`CONTENT_WEIGHTS` — and the resulting age rating is 6 or 8. -/
theorem claim1_profanity_only (mpa s1 s2 s3 s4 s5 : Str)
    (h1 : s1 ∈ normalizedSeverities) (h2 : s2 ∈ normalizedSeverities)
    (h3 : s3 ∈ normalizedSeverities) (h4 : s4 ∈ normalizedSeverities)
    (h5 : s5 ∈ normalizedSeverities) :
    calculate_age_rating (parsedSections mpa s1 s2 s3 s4 s5)
      = calculate_age_rating [(s2c ("profanity"), s3)]
    ∧ (calculate_age_rating (parsedSections mpa s1 s2 s3 s4 s5) = 6
       ∨ calculate_age_rating (parsedSections mpa s1 s2 s3 s4 s5) = 8) := by
  have hexp : calcScore (parsedSections mpa s1 s2 s3 s4 s5)
      = scoreStep 0 (s2c ("profanity"), s3) := by
    show List.foldl scoreStep 0 _ = _
    simp only [parsedSections, List.foldl]
    rw [scoreStep_unscored (s2c ("mpa_rating")) mpa rfl,
      scoreStep_unscored (s2c ("sexnudity")) s1 rfl,
      scoreStep_unscored (s2c ("violencegore")) s2 rfl,
      scoreStep_unscored (s2c ("alcohol_drugssmoking")) s4 rfl,
      scoreStep_unscored (s2c ("frighteningintense_scenes")) s5 rfl]
  have hone : calcScore [(s2c ("profanity"), s3)] = scoreStep 0 (s2c ("profanity"), s3) := rfl
  constructor
  · show scoreToAge (calcScore _) = scoreToAge (calcScore _)
    rw [hexp, hone]
  · show scoreToAge (calcScore _) = 6 ∨ scoreToAge (calcScore _) = 8
    rw [hexp]
    fin_cases h3 <;> decide

/-- C1 witness: a parsed document with every category at `strong` (profanity
at `mild`) scores through profanity alone, rating 8. -/
theorem claim1_witness :
    calculate_age_rating (parsedSections (s2c ("PG")) (s2c ("strong")) (s2c ("strong"))
        (s2c ("mild")) (s2c ("strong")) (s2c ("strong")))
      = calculate_age_rating [(s2c ("profanity"), s2c ("mild"))]
    ∧ (calculate_age_rating (parsedSections (s2c ("PG")) (s2c ("strong")) (s2c ("strong"))
        (s2c ("mild")) (s2c ("strong")) (s2c ("strong"))) = 6
       ∨ calculate_age_rating (parsedSections (s2c ("PG")) (s2c ("strong")) (s2c ("strong"))
        (s2c ("mild")) (s2c ("strong")) (s2c ("strong"))) = 8) :=
  claim1_profanity_only (s2c ("PG")) (s2c ("strong")) (s2c ("strong")) (s2c ("mild"))
    (s2c ("strong")) (s2c ("strong"))
    (by decide) (by decide) (by decide) (by decide) (by decide)

/-- C7: starting from an empty cache, the first lookup computes and stores the
rating of the current upstream document; a second lookup within the TTL
window returns that identical stored value and leaves the cache untouched
even if the upstream document has changed; a lookup at or after expiry
recomputes and reflects the new document. -/
theorem claim7_cache_ttl (compute : List (Str × Str) → Option Nat)
    (id : Str) (t0 t1 t2 : Nat) (doc1 doc2 : List (Str × Str))
    (hin : t1 < t0 + 3600) (hout : t0 + 3600 ≤ t2) :
    (cacheLookup compute 3600 [] id t0 doc1).1 = compute doc1
    ∧ cacheLookup compute 3600 (cacheLookup compute 3600 [] id t0 doc1).2 id t1 doc2
        = ((cacheLookup compute 3600 [] id t0 doc1).1,
           (cacheLookup compute 3600 [] id t0 doc1).2)
    ∧ (cacheLookup compute 3600 (cacheLookup compute 3600 [] id t0 doc1).2 id t2 doc2).1
        = compute doc2 := by
  have hself : (id == id) = true := by
    simp [List.instBEq]
  refine ⟨rfl, ?_, ?_⟩
  · show cacheLookup compute 3600 [CacheEntry.mk id (compute doc1) (t0 + 3600)] id t1 doc2 = _
    unfold cacheLookup
    simp only [List.find?, hself, if_pos hin, List.filter_nil]
  · show (cacheLookup compute 3600 [CacheEntry.mk id (compute doc1) (t0 + 3600)] id t2 doc2).1
      = compute doc2
    unfold cacheLookup
    simp only [List.find?, hself]
    rw [if_neg (by omega)]

/-- C7 witness: a concrete run of the cached lookup around the TTL boundary,
with the aggregation pipeline as the computation and an upstream document
that changes between the calls. -/
theorem claim7_witness :
    (cacheLookup (fun d => some (calculate_age_rating d)) 3600 []
        (s2c ("tt1")) 0 allStrongSections).1 = some 10
    ∧ cacheLookup (fun d => some (calculate_age_rating d)) 3600
        (cacheLookup (fun d => some (calculate_age_rating d)) 3600 []
          (s2c ("tt1")) 0 allStrongSections).2 (s2c ("tt1")) 3599 []
        = ((cacheLookup (fun d => some (calculate_age_rating d)) 3600 []
            (s2c ("tt1")) 0 allStrongSections).1,
           (cacheLookup (fun d => some (calculate_age_rating d)) 3600 []
            (s2c ("tt1")) 0 allStrongSections).2)
    ∧ (cacheLookup (fun d => some (calculate_age_rating d)) 3600
        (cacheLookup (fun d => some (calculate_age_rating d)) 3600 []
          (s2c ("tt1")) 0 allStrongSections).2 (s2c ("tt1")) 3600 []).1
        = some 6 := by
  have h := claim7_cache_ttl (fun d => some (calculate_age_rating d))
    (s2c ("tt1")) 0 3599 3600 allStrongSections [] (by omega) (by omega)
  refine ⟨h.1.trans (by decide), h.2.1, h.2.2.trans (by decide)⟩

/-! ## Infrastructure for C8: locating bracketed headers in a description -/

/-- A character of a regex word-class token (`\w`) — or of the fixed fallback
`Unknown` — never lower-cases to an opening bracket. -/
theorem toLower_ne_bracket (c : Char) (h : (c.isAlphanum || c == '_') = true) :
    c.toLower ≠ '[' := by
  have hnotbr : c ≠ '[' := by
    intro hc
    subst hc
    exact absurd h (by decide)
  show Char.toLower c ≠ '['
  simp only [Char.toLower]
  by_cases hcond : c.toNat ≥ 65 ∧ c.toNat ≤ 90
  · rw [if_pos hcond]
    have hb : ∀ m, m < 91 → 65 ≤ m → Char.ofNat (m + 32) ≠ '[' := by decide
    exact hb c.toNat (by omega) hcond.1
  · rw [if_neg hcond]
    exact hnotbr

/-- A failed case-insensitive prefix test on the first part of a
concatenation fails on the whole concatenation. -/
theorem pfxCI_take_append (n : Str) : ∀ (t b : Str),
    pfxCI (n.take t.length) t = false → pfxCI n (t ++ b) = false := by
  induction n with
  | nil =>
    intro t b h
    simp [pfxCI] at h
  | cons a as ih =>
    intro t b h
    cases t with
    | nil => simp [pfxCI] at h
    | cons c cs =>
      simp only [List.length_cons, List.take_succ_cons, pfxCI] at h
      show (a == c.toLower && pfxCI as (cs ++ b)) = false
      cases ha : (a == c.toLower) with
      | false => simp [ha]
      | true =>
        simp only [ha, Bool.true_and] at h ⊢
        exact ih cs b h

/-- A case-insensitive prefix test only inspects as many characters as the
needle has. -/
theorem pfxCI_append_of_le (n : Str) : ∀ (t b : Str), n.length ≤ t.length →
    pfxCI n (t ++ b) = pfxCI n t := by
  induction n with
  | nil => intro t b _; rfl
  | cons a as ih =>
    intro t b h
    cases t with
    | nil => simp at h
    | cons c cs =>
      show (a == c.toLower && pfxCI as (cs ++ b)) = (a == c.toLower && pfxCI as cs)
      rw [ih cs b (by simpa using h)]

/-- Scanning check: no suffix of `t` starts a case-insensitive match of `n`
where the match could only be refuted inside `t` itself. -/
def noHitPre (n : Str) : Str → Bool
  | [] => true
  | c :: rest => !(pfxCI (n.take (rest.length + 1)) (c :: rest)) && noHitPre n rest

/-- A concrete text segment passing `noHitPre` can be skipped by the
case-insensitive search. -/
theorem findAfterCI_skip_lit (n : Str) : ∀ (t b : Str),
    noHitPre n t = true → findAfterCI n (t ++ b) = findAfterCI n b := by
  intro t
  induction t with
  | nil => intro b _; rfl
  | cons c cs ih =>
    intro b h
    simp only [noHitPre, Bool.and_eq_true, Bool.not_eq_true'] at h
    show findAfterCI n (c :: (cs ++ b)) = findAfterCI n b
    rw [findAfterCI]
    have hfalse : pfxCI n (c :: (cs ++ b)) = false := by
      have hf0 := pfxCI_take_append n (c :: cs) b (by simpa using h.1)
      simpa using hf0
    rw [if_neg (by simp [hfalse])]
    exact ih b h.2

/-- A segment none of whose characters lower-cases to `[` cannot start a
match of a needle that begins with `[`, so the search skips past it. -/
theorem findAfterCI_skip_free (n : Str) (hn : n.head? = some '[') :
    ∀ (a b : Str), (∀ c ∈ a, c.toLower ≠ '[') →
      findAfterCI n (a ++ b) = findAfterCI n b := by
  intro a
  induction a with
  | nil => intro b _; rfl
  | cons c cs ih =>
    intro b ha
    show findAfterCI n (c :: (cs ++ b)) = findAfterCI n b
    rw [findAfterCI]
    have hc : c.toLower ≠ '[' := ha c (List.mem_cons_self c cs)
    have hfalse : pfxCI n (c :: (cs ++ b)) = false := by
      cases n with
      | nil => simp at hn
      | cons a0 as =>
        have ha0 : a0 = '[' := by simpa using hn
        subst ha0
        show (('[' : Char) == c.toLower && pfxCI as (cs ++ b)) = false
        have : (('[' : Char) == c.toLower) = false := by
          simpa using fun hcontra => hc hcontra.symm
        simp [this]
    rw [if_neg (by simp [hfalse])]
    exact ih b (fun x hx => ha x (List.mem_cons_of_mem c hx))

/-- The description `scrape_movie` composes from a successfully parsed
document, written as an explicit concatenation of its header and value
segments. -/
theorem buildDescription_parsed (mpa s1 s2 s3 s4 s5 : Str) :
    buildDescription (parsedSections mpa s1 s2 s3 s4 s5)
      = s2c ("[MPA Rating]\nRated ")
        ++ (mpa ++ (s2c ("\n[Sexnudity]\n")
        ++ (capitalizeStr s1 ++ (s2c ("\n[Violencegore]\n")
        ++ (capitalizeStr s2 ++ (s2c ("\n[Profanity]\n")
        ++ (capitalizeStr s3 ++ (s2c ("\n[Alcohol Drugssmoking]\n")
        ++ (capitalizeStr s4 ++ (s2c ("\n[Frighteningintense Scenes]\n")
        ++ (capitalizeStr s5 ++ s2c ("\n")))))))))))) := by
  have h1 : titleCase (replaceCh '_' ' ' (s2c ("sexnudity"))) = s2c ("Sexnudity") := by decide
  have h2 : titleCase (replaceCh '_' ' ' (s2c ("violencegore"))) = s2c ("Violencegore") := by
    decide
  have h3 : titleCase (replaceCh '_' ' ' (s2c ("profanity"))) = s2c ("Profanity") := by decide
  have h4 : titleCase (replaceCh '_' ' ' (s2c ("alcohol_drugssmoking")))
      = s2c ("Alcohol Drugssmoking") := by decide
  have h5 : titleCase (replaceCh '_' ' ' (s2c ("frighteningintense_scenes")))
      = s2c ("Frighteningintense Scenes") := by decide
  have e1 := eq_false (show s2c ("sexnudity") ≠ s2c ("mpa_rating") by decide)
  have e2 := eq_false (show s2c ("violencegore") ≠ s2c ("mpa_rating") by decide)
  have e3 := eq_false (show s2c ("profanity") ≠ s2c ("mpa_rating") by decide)
  have e4 := eq_false (show s2c ("alcohol_drugssmoking") ≠ s2c ("mpa_rating") by decide)
  have e5 := eq_false (show s2c ("frighteningintense_scenes") ≠ s2c ("mpa_rating") by decide)
  simp only [buildDescription, parsedSections, List.foldl, e1, e2, e3, e4, e5,
    eq_self_iff_true, if_true, if_false, h1, h2, h3, h4, h5]
  simp only [List.append_assoc, List.nil_append]
  rfl

/-- A successful case-insensitive prefix match on the concrete first part of a
concatenation makes the search return the text after the needle. -/
theorem findAfterCI_hit (n t b : Str) (hlen : n.length ≤ t.length)
    (hp : pfxCI n t = true) (ht : t ≠ []) :
    findAfterCI n (t ++ b) = some ((t ++ b).drop n.length) := by
  cases t with
  | nil => exact absurd rfl ht
  | cons c cs =>
    show findAfterCI n (c :: (cs ++ b)) = _
    rw [findAfterCI]
    have heq : pfxCI n (c :: (cs ++ b)) = true := by
      have h0 := pfxCI_append_of_le n (c :: cs) b (by simpa using hlen)
      simp only [List.cons_append] at h0
      rw [h0, hp]
    rw [if_pos (by simp [heq])]
    simp

/-- The capitalized rendering of a normalized severity label contains no
character that lower-cases to an opening bracket. -/
theorem capSeverity_no_bracket (s : Str) (hs : s ∈ normalizedSeverities) :
    ∀ c ∈ capitalizeStr s, c.toLower ≠ '[' := by
  fin_cases hs <;> decide

/-- A needle that begins with `[` and survives the scanning checks on all six
concrete header segments does not occur (case-insensitively) anywhere in the
description built from a parsed document. -/
theorem findAfterCI_description_none (nd mpa s1 s2 s3 s4 s5 : Str)
    (hn : nd.head? = some '[')
    (hmpa : ∀ c ∈ mpa, c.toLower ≠ '[')
    (h1 : s1 ∈ normalizedSeverities) (h2 : s2 ∈ normalizedSeverities)
    (h3 : s3 ∈ normalizedSeverities) (h4 : s4 ∈ normalizedSeverities)
    (h5 : s5 ∈ normalizedSeverities)
    (hL0 : noHitPre nd (s2c ("[MPA Rating]\nRated ")) = true)
    (hLA : noHitPre nd (s2c ("\n[Sexnudity]\n")) = true)
    (hLB : noHitPre nd (s2c ("\n[Violencegore]\n")) = true)
    (hLC : noHitPre nd (s2c ("\n[Profanity]\n")) = true)
    (hLD : noHitPre nd (s2c ("\n[Alcohol Drugssmoking]\n")) = true)
    (hLE : noHitPre nd (s2c ("\n[Frighteningintense Scenes]\n")) = true)
    (hLF : findAfterCI nd (s2c ("\n")) = none) :
    findAfterCI nd (buildDescription (parsedSections mpa s1 s2 s3 s4 s5)) = none := by
  rw [buildDescription_parsed]
  rw [findAfterCI_skip_lit nd _ _ hL0]
  rw [findAfterCI_skip_free nd hn mpa _ hmpa]
  rw [findAfterCI_skip_lit nd _ _ hLA]
  rw [findAfterCI_skip_free nd hn (capitalizeStr s1) _ (capSeverity_no_bracket s1 h1)]
  rw [findAfterCI_skip_lit nd _ _ hLB]
  rw [findAfterCI_skip_free nd hn (capitalizeStr s2) _ (capSeverity_no_bracket s2 h2)]
  rw [findAfterCI_skip_lit nd _ _ hLC]
  rw [findAfterCI_skip_free nd hn (capitalizeStr s3) _ (capSeverity_no_bracket s3 h3)]
  rw [findAfterCI_skip_lit nd _ _ hLD]
  rw [findAfterCI_skip_free nd hn (capitalizeStr s4) _ (capSeverity_no_bracket s4 h4)]
  rw [findAfterCI_skip_lit nd _ _ hLE]
  rw [findAfterCI_skip_free nd hn (capitalizeStr s5) _ (capSeverity_no_bracket s5 h5)]
  exact hLF

/-- Splitting the profanity header segment at its leading newline. -/
theorem split_profanity_header (b : Str) :
    s2c ("\n[Profanity]\n") ++ b = s2c ("\n") ++ (s2c ("[Profanity]\n") ++ b) := rfl

/-- The first case-insensitive occurrence of `[profanity]` in a built
description is its own header, so the search returns the text that follows
that header. -/
theorem findAfterCI_description_profanity (mpa s1 s2 s3 s4 s5 : Str)
    (hmpa : ∀ c ∈ mpa, c.toLower ≠ '[')
    (h1 : s1 ∈ normalizedSeverities) (h2 : s2 ∈ normalizedSeverities) :
    findAfterCI ((s2c ("[") ++ s2c ("profanity")) ++ s2c ("]"))
        (buildDescription (parsedSections mpa s1 s2 s3 s4 s5))
      = some (s2c ("\n") ++ (capitalizeStr s3 ++ (s2c ("\n[Alcohol Drugssmoking]\n")
          ++ (capitalizeStr s4 ++ (s2c ("\n[Frighteningintense Scenes]\n")
          ++ (capitalizeStr s5 ++ s2c ("\n"))))))) := by
  rw [buildDescription_parsed]
  rw [findAfterCI_skip_lit _ _ _ (by decide)]
  rw [findAfterCI_skip_free _ (by decide) mpa _ hmpa]
  rw [findAfterCI_skip_lit _ _ _ (by decide)]
  rw [findAfterCI_skip_free _ (by decide) (capitalizeStr s1) _ (capSeverity_no_bracket s1 h1)]
  rw [findAfterCI_skip_lit _ _ _ (by decide)]
  rw [findAfterCI_skip_free _ (by decide) (capitalizeStr s2) _ (capSeverity_no_bracket s2 h2)]
  rw [split_profanity_header]
  rw [findAfterCI_skip_lit _ _ _ (by decide)]
  rw [findAfterCI_hit _ _ _ (by decide) (by decide) (by decide)]
  rfl

/-- The profanity capture group in a built description: the severity block
between the profanity header and the next bracketed header. -/
theorem regexCapture_profanity_tail (s3 : Str) (h3 : s3 ∈ normalizedSeverities)
    (s4 s5 : Str) :
    regexCapture (s2c ("\n") ++ (capitalizeStr s3 ++ (s2c ("\n[Alcohol Drugssmoking]\n")
        ++ (capitalizeStr s4 ++ (s2c ("\n[Frighteningintense Scenes]\n")
        ++ (capitalizeStr s5 ++ s2c ("\n")))))))
      = s2c ("\n") ++ (capitalizeStr s3 ++ s2c ("\n")) := by
  fin_cases h3 <;> rfl

/-- Assembling `get_rating_reasons` from the values of its five category
searches: with all categories but profanity giving no reason, the result is
the profanity reason, or the fallback sentence when there is none. -/
theorem get_rating_reasons_by_category (D : Str) (r : Option Str)
    (hnud : reasonFor (s2c ("nudity")) D = none)
    (hvio : reasonFor (s2c ("violence")) D = none)
    (hpro : reasonFor (s2c ("profanity")) D = r)
    (hfri : reasonFor (s2c ("frightening")) D = none)
    (halc : reasonFor (s2c ("alcohol")) D = none) :
    get_rating_reasons D = r.getD (s2c ("Suitable for all ages")) := by
  have d1 := eq_false (show s2c ("nudity") ≠ s2c ("spoilers") by decide)
  have d2 := eq_false (show s2c ("violence") ≠ s2c ("spoilers") by decide)
  have d3 := eq_false (show s2c ("profanity") ≠ s2c ("spoilers") by decide)
  have d4 := eq_false (show s2c ("frightening") ≠ s2c ("spoilers") by decide)
  have d5 := eq_false (show s2c ("alcohol") ≠ s2c ("spoilers") by decide)
  cases r with
  | none =>
    simp only [get_rating_reasons, CONTENT_WEIGHTS, List.map_cons, List.map_nil,
      List.filterMap_cons, List.filterMap_nil, d1, d2, d3, d4, d5,
      eq_self_iff_true, if_true, if_false, hnud, hvio, hpro, hfri, halc]
    rfl
  | some x =>
    simp only [get_rating_reasons, CONTENT_WEIGHTS, List.map_cons, List.map_nil,
      List.filterMap_cons, List.filterMap_nil, d1, d2, d3, d4, d5,
      eq_self_iff_true, if_true, if_false, hnud, hvio, hpro, hfri, halc]
    rfl

set_option maxHeartbeats 1000000 in
/-- The value of the profanity reason on a built description, by the parsed
severity: `none` yields no reason, `mild` and `moderate` classify as
themselves, and `minimal` and `strong` both classify as `minimal`. -/
theorem reasonFor_profanity_value (mpa s1 s2 s3 s4 s5 : Str)
    (hmpa : ∀ c ∈ mpa, c.toLower ≠ '[')
    (h1 : s1 ∈ normalizedSeverities) (h2 : s2 ∈ normalizedSeverities)
    (h3 : s3 ∈ normalizedSeverities) :
    reasonFor (s2c ("profanity"))
        (buildDescription (parsedSections mpa s1 s2 s3 s4 s5))
      = (if s3 = s2c ("none") then none
         else if s3 = s2c ("mild") then some (s2c ("Profanity (mild)"))
         else if s3 = s2c ("moderate") then some (s2c ("Profanity (moderate)"))
         else some (s2c ("Profanity (minimal)"))) := by
  fin_cases h3 <;>
  · unfold reasonFor
    rw [findAfterCI_description_profanity mpa s1 s2 _ s4 s5 hmpa h1 h2]
    dsimp only
    rw [regexCapture_profanity_tail _ (by decide) s4 s5]
    decide

set_option maxHeartbeats 1000000 in
/-- C8: on every description the advisory pipeline itself produces, the
reason formatter can only emit a profanity reason or the fallback sentence —
the generated headers never match the other categories' search patterns. -/
theorem claim8_profanity_or_fallback (mpa s1 s2 s3 s4 s5 : Str)
    (hword : ∀ c ∈ mpa, (c.isAlphanum || c == '_') = true)
    (h1 : s1 ∈ normalizedSeverities) (h2 : s2 ∈ normalizedSeverities)
    (h3 : s3 ∈ normalizedSeverities) (h4 : s4 ∈ normalizedSeverities)
    (h5 : s5 ∈ normalizedSeverities) :
    get_rating_reasons (buildDescription (parsedSections mpa s1 s2 s3 s4 s5))
      ∈ [ s2c ("Suitable for all ages"), s2c ("Profanity (minimal)"),
          s2c ("Profanity (mild)"), s2c ("Profanity (moderate)") ] := by
  have hmpa : ∀ c ∈ mpa, c.toLower ≠ '[' :=
    fun c hc => toLower_ne_bracket c (hword c hc)
  have hnud : reasonFor (s2c ("nudity"))
      (buildDescription (parsedSections mpa s1 s2 s3 s4 s5)) = none := by
    unfold reasonFor
    rw [findAfterCI_description_none ((s2c ("[") ++ s2c ("nudity")) ++ s2c ("]"))
      mpa s1 s2 s3 s4 s5 (by decide) hmpa h1 h2 h3 h4 h5 (by decide) (by decide)
      (by decide) (by decide) (by decide) (by decide) (by decide)]
  have hvio : reasonFor (s2c ("violence"))
      (buildDescription (parsedSections mpa s1 s2 s3 s4 s5)) = none := by
    unfold reasonFor
    rw [findAfterCI_description_none ((s2c ("[") ++ s2c ("violence")) ++ s2c ("]"))
      mpa s1 s2 s3 s4 s5 (by decide) hmpa h1 h2 h3 h4 h5 (by decide) (by decide)
      (by decide) (by decide) (by decide) (by decide) (by decide)]
  have hfri : reasonFor (s2c ("frightening"))
      (buildDescription (parsedSections mpa s1 s2 s3 s4 s5)) = none := by
    unfold reasonFor
    rw [findAfterCI_description_none ((s2c ("[") ++ s2c ("frightening")) ++ s2c ("]"))
      mpa s1 s2 s3 s4 s5 (by decide) hmpa h1 h2 h3 h4 h5 (by decide) (by decide)
      (by decide) (by decide) (by decide) (by decide) (by decide)]
  have halc : reasonFor (s2c ("alcohol"))
      (buildDescription (parsedSections mpa s1 s2 s3 s4 s5)) = none := by
    unfold reasonFor
    rw [findAfterCI_description_none ((s2c ("[") ++ s2c ("alcohol")) ++ s2c ("]"))
      mpa s1 s2 s3 s4 s5 (by decide) hmpa h1 h2 h3 h4 h5 (by decide) (by decide)
      (by decide) (by decide) (by decide) (by decide) (by decide)]
  have hpv := reasonFor_profanity_value mpa s1 s2 s3 s4 s5 hmpa h1 h2 h3
  rw [get_rating_reasons_by_category (buildDescription (parsedSections mpa s1 s2 s3 s4 s5))
    _ hnud hvio hpv hfri halc]
  fin_cases h3 <;> decide

/-- C8 witness: a concrete parsed document whose description yields the
profanity reason alone. -/
theorem claim8_witness :
    get_rating_reasons (buildDescription (parsedSections (s2c ("PG")) (s2c ("strong"))
        (s2c ("moderate")) (s2c ("mild")) (s2c ("none")) (s2c ("strong"))))
      ∈ [ s2c ("Suitable for all ages"), s2c ("Profanity (minimal)"),
          s2c ("Profanity (mild)"), s2c ("Profanity (moderate)") ] :=
  claim8_profanity_or_fallback (s2c ("PG")) (s2c ("strong")) (s2c ("moderate"))
    (s2c ("mild")) (s2c ("none")) (s2c ("strong")) (by decide) (by decide)
    (by decide) (by decide) (by decide) (by decide)
